import Mathlib

/-!
Shallow embedding of the core of the txtcomp repository (the Assessment
Orchestrator of src/App.tsx, the Question Engine of
src/components/QuestionEngine.tsx, and the LLM Gateway of
src/services/geminiService.ts), together with theorems settling the
frozen claims about it.

Modelling conventions:
* JavaScript Maps become total lookup functions returning an Option
  (a missing key is none), `new Map(m).set(k, v)` becomes a function update.
* The LLM is a non-deterministic external party; each Gateway operation is
  embedded from its post-transport / post-parse pipeline, with the network
  and parse outcome supplied as an explicit argument (a transport error in
  the source is a thrown exception and becomes Except.error).
* French string constants from the source are reproduced with the
  typographic apostrophe U+2019 in place of the ASCII apostrophe.
-/

namespace Txtcomp

/-- Question categories used by the assessment (types.ts QuestionType). -/
inductive QuestionType where
  | LITERAL
  | INFERENTIAL
  | EVALUATIVE
deriving DecidableEq, Repr

/-- A quiz question (types.ts Question). -/
structure Question where
  id : Nat
  text : String
  type : QuestionType
deriving DecidableEq, Repr

/-- A glossary entry (types.ts GlossaryItem). -/
structure GlossaryItem where
  word : String
  definition : String
deriving DecidableEq, Repr

/-- The story payload built by Gateway Op A (types.ts StoryData). -/
structure StoryData where
  title : String
  content : String
  imageUrl : Option String := none
  glossary : List GlossaryItem
  questions : List Question
deriving DecidableEq, Repr

/-- A JSON field value as JavaScript sees it after JSON.parse; undef stands
for a missing property and jobj for any object or array value. -/
inductive JVal where
  | undef
  | jnull
  | jbool (b : Bool)
  | jnum (n : Int)
  | jstr (s : String)
  | jobj
deriving DecidableEq, Repr

/-- JavaScript truthiness of a field value (the double-bang coercion). -/
def JVal.truthy : JVal → Bool
  | .undef => false
  | .jnull => false
  | .jbool b => b
  | .jnum n => n != 0
  | .jstr s => s != ""
  | .jobj => true

/-- The value when the field passes a typeof-string test, none otherwise. -/
def JVal.asString : JVal → Option String
  | .jstr s => some s
  | _ => none

/-- The value when the field passes a typeof-number test, none otherwise. -/
def JVal.asNum : JVal → Option Int
  | .jnum n => some n
  | _ => none

/-- The four properties the correction prompt asks the model for, as found in
the parsed JSON object; each can be missing or of the wrong type. -/
structure ParsedEval where
  isCorrect : JVal
  score : JVal
  feedback : JVal
  correctAnswer : JVal
deriving DecidableEq, Repr

/-- The evaluation record (types.ts EvaluationResult, plus the score field the
service actually attaches).  correctAnswer is optional in the type, so none
models the field being absent; isIncomplete is only ever truthiness-tested by
the consumers, so a missing field is modelled as false. -/
structure EvaluationResult where
  isCorrect : Bool
  isIncomplete : Bool := false
  score : Option Int := none
  feedback : String
  correctAnswer : Option String := none
deriving DecidableEq, Repr

/-- JavaScript String.prototype.includes on the underlying characters. -/
def strIncludes (s pat : String) : Bool :=
  decide (pat.toList <:+: s.toList)

/-- Characters JavaScript String.prototype.trim removes. -/
def isJsSpace (c : Char) : Bool :=
  c == ' ' || c == '\t' || c == '\n' || c == '\r' || c == '\x0b' || c == '\x0c'

/-- JavaScript String.prototype.trim, on the underlying characters. -/
def jsTrim (s : String) : String :=
  String.mk (((s.toList.dropWhile isJsSpace).reverse.dropWhile isJsSpace).reverse)

/-- JavaScript String.prototype.toLowerCase, character by character (the
source only ever compares against ASCII-cased French phrases). -/
def jsToLower (s : String) : String :=
  String.mk (s.toList.map Char.toLower)

/-- The hedging test evaluateAnswer applies to the lower-cased, trimmed
correctAnswer string (geminiService.ts lines 671-677). -/
def hedging (ca : String) : Bool :=
  let lower := jsToLower ca
  strIncludes lower "je ne peux pas répondre" ||
    (strIncludes lower "texte" && strIncludes lower "question" &&
      (strIncludes lower "pas fournis" || strIncludes lower "non fournis"))

/-- Default feedback substituted when the parsed feedback field is not a
string (geminiService.ts lines 662-665). -/
def defaultFeedbackMissing : String :=
  "Relis bien le texte et essaie d’expliquer avec tes propres mots 😊"

/-- Neutral feedback substituted when the hedging test fires and the parsed
feedback field was falsy (geminiService.ts lines 681-684). -/
def neutralFeedbackHedged : String :=
  "Réfléchis bien à ce que dit le texte et essaie de répondre de façon plus précise 😊"

/-- Feedback of the safe result returned when the model output fails to parse
(geminiService.ts lines 698-707). -/
def parseFailFeedback : String :=
  "Je n’ai pas pu corriger ta réponse à cause d’un petit problème technique. Réessaie dans un instant 😊"

/-- The post-parse normalization of evaluateAnswer (geminiService.ts lines
659-697): coerce isCorrect, range-check score, default feedback, trim and
sanitize correctAnswer. -/
def evalParsed (p : ParsedEval) : EvaluationResult :=
  let feedback0 := p.feedback.asString.getD defaultFeedbackMissing
  let ca0 := jsTrim (p.correctAnswer.asString.getD "")
  let blank := hedging ca0
  { isCorrect := p.isCorrect.truthy
    isIncomplete := false
    score := some (match p.score.asNum with
      | some n => if 0 ≤ n ∧ n ≤ 2 then n else 0
      | none => 0)
    feedback := if blank && !p.feedback.truthy then neutralFeedbackHedged else feedback0
    correctAnswer := some (if blank then "" else ca0) }

/-- Outcome of the network call plus JSON parse as seen inside evaluateAnswer:
the transport can throw, the extracted text can fail to parse, or it parses
into an object with the four expected properties. -/
inductive EvalOutcome where
  | transportError
  | parseFailure
  | parsed (p : ParsedEval)
deriving Repr

/-- Gateway Op B, geminiService.ts evaluateAnswer (lines 606-708).  The
generateContent call sits outside the try block, so a transport error
propagates to the caller as an exception; only a JSON parse failure is caught
and converted to the safe neutral result. -/
def evaluateAnswer : EvalOutcome → Except Unit EvaluationResult
  | .transportError => .error ()
  | .parseFailure =>
      .ok { isCorrect := false, score := some 0, feedback := parseFailFeedback,
            correctAnswer := some "" }
  | .parsed p => .ok (evalParsed p)

/-- Sentinel substituted when the transcribed content is empty or whitespace
(geminiService.ts lines 593-597). -/
def extractionSentinel : String :=
  "[ERREUR] Le texte n’a pas été correctement extrait de l’image."

/-- Gateway Op A, geminiService.ts generateAssessment (lines 537-600), from
the parse outcome on: none is a transport error or a JSON parse failure (the
function throws in both cases), some d is the parsed StoryData.  The only
adjustment made to the parsed data is the empty-content sentinel; no other
field is validated. -/
def generateAssessment : Option StoryData → Except Unit StoryData
  | none => .error ()
  | some d =>
      .ok (if jsTrim d.content = "" then { d with content := extractionSentinel } else d)

/-- Number of questions of a given type in a list. -/
def countType (qs : List Question) (t : QuestionType) : Nat :=
  (qs.filter (fun q => q.type == t)).length

/-- The spec §3 invariants on a StoryData that claim C1 quantifies over:
ten questions split 4/4/2, pairwise-distinct ids, non-empty content and a
glossary of three to six entries. -/
def storyInvariants (d : StoryData) : Prop :=
  d.questions.length = 10 ∧
  countType d.questions .LITERAL = 4 ∧
  countType d.questions .INFERENTIAL = 4 ∧
  countType d.questions .EVALUATIVE = 2 ∧
  (d.questions.map Question.id).Nodup ∧
  d.content ≠ "" ∧
  3 ≤ d.glossary.length ∧ d.glossary.length ≤ 6

/-- Per-question lifecycle states (QuestionEngine.tsx line 8). -/
inductive QuestionStatus where
  | IDLE
  | CORRECT
  | INCORRECT_RETRY
  | FAILED_FINAL
deriving DecidableEq, Repr

/-- The test the Engine applies to decide whether a question is finished
(QuestionEngine.tsx lines 36-37 and 135-138 use exactly this disjunction). -/
def isTerminal (st : QuestionStatus) : Bool :=
  st == .CORRECT || st == .FAILED_FINAL

/-- The four state maps the Question Engine owns, keyed by question id
(QuestionEngine.tsx lines 110-113); a JavaScript Map is a lookup function
returning none for an absent key.  The isEvaluating flag is UI-only. -/
structure EngineState where
  answers : Nat → Option String
  statuses : Nat → Option QuestionStatus
  feedbacks : Nat → Option EvaluationResult
  attempts : Nat → Option Nat

/-- All maps start empty. -/
def initialEngineState : EngineState :=
  { answers := fun _ => none, statuses := fun _ => none,
    feedbacks := fun _ => none, attempts := fun _ => none }

/-- The answer component of getQuestionState (default empty string). -/
def answerOf (s : EngineState) (id : Nat) : String :=
  (s.answers id).getD ""

/-- The status component of getQuestionState (default IDLE). -/
def statusOf (s : EngineState) (id : Nat) : QuestionStatus :=
  (s.statuses id).getD .IDLE

/-- The attempt component of getQuestionState (default 0). -/
def attemptOf (s : EngineState) (id : Nat) : Nat :=
  (s.attempts id).getD 0

/-- JavaScript new Map(m).set(id, v) as a function update. -/
def mapSet {α : Type} (m : Nat → Option α) (id : Nat) (v : α) : Nat → Option α :=
  fun x => if x = id then some v else m x

/-- QuestionEngine.tsx handleAnswerChange (lines 125-127). -/
def handleAnswerChange (s : EngineState) (id : Nat) (val : String) : EngineState :=
  { s with answers := mapSet s.answers id val }

/-- The Gateway as an oracle for the Engine: the EvaluationResult the
evaluateAnswer call would resolve with for a given question and student
answer (the owning StoryData is fixed). -/
abbrev EvalOracle := Question → String → EvaluationResult

/-- The submission batch candidates: every question that is not CORRECT and
not FAILED_FINAL (QuestionEngine.tsx lines 135-138). -/
def questionsToEvaluate (story : StoryData) (s : EngineState) : List Question :=
  story.questions.filter (fun q => !(isTerminal (statusOf s q.id)))

/-- The locally produced result for an empty answer, which skips the Gateway
call (QuestionEngine.tsx lines 153-168); correctAnswer is left undefined. -/
def localEmptyResult (isRetry : Bool) : EvaluationResult :=
  { isCorrect := false
    isIncomplete := true
    feedback := if isRetry then "Tu n’as pas répondu. Voici la réponse."
                else "Tu n’as pas répondu. Essaie d’écrire quelque chose !"
    correctAnswer := none }

/-- One element produced by the Promise.all batch: the question id, the
evaluation obtained for it, and whether this submission is the retry. -/
structure BatchItem where
  id : Nat
  result : EvaluationResult
  isRetry : Bool
deriving DecidableEq, Repr

/-- One arm of the parallel batch (QuestionEngine.tsx lines 148-173): an
empty (whitespace-only) answer short-circuits locally, otherwise the Gateway
is consulted. -/
def mkItem (gw : EvalOracle) (s : EngineState) (q : Question) : BatchItem :=
  let answer := answerOf s q.id
  let isRetry := decide (0 < attemptOf s q.id)
  if jsTrim answer = "" then ⟨q.id, localEmptyResult isRetry, isRetry⟩
  else ⟨q.id, gw q answer, isRetry⟩

/-- JavaScript falsiness of the optional correctAnswer field (the bang test
on result.correctAnswer at QuestionEngine.tsx line 188). -/
def caFalsy : Option String → Bool
  | none => true
  | some s => s == ""

/-- The non-null-asserted storyData.questions.find by id used for the forced
second Gateway call (QuestionEngine.tsx line 190); the default is never
reached because the id always comes from the question list. -/
def findQ (story : StoryData) (id : Nat) : Question :=
  (story.questions.find? (fun q => q.id == id)).getD ⟨0, "", .LITERAL⟩

/-- Condition of the forced second Gateway call inside the update loop
(QuestionEngine.tsx line 188): the stored answer is empty, this was the
retry, and the batch result carries no correctAnswer. -/
def needsForcedCall (s : EngineState) (it : BatchItem) : Bool :=
  jsTrim (answerOf s it.id) == "" && it.isRetry && caFalsy it.result.correctAnswer

/-- The finalResult of the update loop (QuestionEngine.tsx lines 186-192):
either the batch result or the result of the forced empty-answer call. -/
def finalResultOf (gw : EvalOracle) (story : StoryData) (s : EngineState)
    (it : BatchItem) : EvaluationResult :=
  if needsForcedCall s it then gw (findQ story it.id) "" else it.result

/-- The status the update loop writes for an item (QuestionEngine.tsx lines
196-209). -/
def newStatusOf (gw : EvalOracle) (story : StoryData) (s : EngineState)
    (it : BatchItem) : QuestionStatus :=
  if (finalResultOf gw story s it).isCorrect then .CORRECT
  else if it.isRetry then .FAILED_FINAL else .INCORRECT_RETRY

/-- The three draft maps of the update loop (newStatuses, newFeedbacks,
newAttempts at QuestionEngine.tsx lines 176-178). -/
structure UpdMaps where
  statuses : Nat → Option QuestionStatus
  feedbacks : Nat → Option EvaluationResult
  attempts : Nat → Option Nat

/-- One iteration of the update loop (QuestionEngine.tsx lines 180-210):
record the final result, then either mark CORRECT (attempts untouched) or
move one step down the retry ladder. -/
def applyItem (gw : EvalOracle) (story : StoryData) (s : EngineState)
    (maps : UpdMaps) (it : BatchItem) : UpdMaps :=
  let fr := finalResultOf gw story s it
  { statuses := mapSet maps.statuses it.id (newStatusOf gw story s it)
    feedbacks := mapSet maps.feedbacks it.id fr
    attempts := if fr.isCorrect then maps.attempts
                else mapSet maps.attempts it.id (if it.isRetry then 2 else 1) }

/-- QuestionEngine.tsx handleGlobalSubmit (lines 129-222) as a pure state
transformer, with the Gateway supplied as the oracle gw.  The answers map is
never written; the three other maps are rebuilt by the update loop and stored
atomically. -/
def handleGlobalSubmit (gw : EvalOracle) (story : StoryData) (s : EngineState) : EngineState :=
  let qs := questionsToEvaluate story s
  if qs.isEmpty then s
  else
    let items := qs.map (mkItem gw s)
    let maps := items.foldl (applyItem gw story s) ⟨s.statuses, s.feedbacks, s.attempts⟩
    { s with statuses := maps.statuses, feedbacks := maps.feedbacks,
             attempts := maps.attempts }

/-- One Gateway Op-B invocation: the question id it was made for and the
studentAnswer argument passed. -/
structure GatewayCall where
  qid : Nat
  studentAnswer : String
deriving DecidableEq, Repr

/-- The Op-B calls a single handleGlobalSubmit run issues: one per candidate
with a non-empty answer during the batch, then one forced call per item that
needs the correction for an empty final submission. -/
def submitCalls (gw : EvalOracle) (story : StoryData) (s : EngineState) : List GatewayCall :=
  let qs := questionsToEvaluate story s
  if qs.isEmpty then []
  else
    (qs.filterMap (fun q =>
        if jsTrim (answerOf s q.id) = "" then none
        else some ⟨q.id, answerOf s q.id⟩))
      ++ ((qs.map (mkItem gw s)).filterMap (fun it =>
        if needsForcedCall s it then some ⟨it.id, ""⟩ else none))

/-- QuestionEngine.tsx isAllComplete (lines 225-228): raw statuses lookup, no
default. -/
def isAllComplete (story : StoryData) (s : EngineState) : Bool :=
  story.questions.all (fun q =>
    s.statuses q.id == some .CORRECT || s.statuses q.id == some .FAILED_FINAL)

/-- The record compiled per question at quiz end (App.tsx consumes it). -/
structure Result where
  question : Question
  userAnswer : Option String
  isCorrect : Bool
  feedback : Option String
  correctAnswer : Option String
deriving DecidableEq, Repr

/-- QuestionEngine.tsx finishQuiz (lines 230-245): one Result per question in
original order; note the raw answers.get with no empty-string default, and
the optional chaining on the feedback record. -/
def finishQuiz (story : StoryData) (s : EngineState) : List Result :=
  story.questions.map (fun q =>
    { question := q
      userAnswer := s.answers q.id
      isCorrect := s.statuses q.id == some .CORRECT
      feedback := (s.feedbacks q.id).map EvaluationResult.feedback
      correctAnswer := (s.feedbacks q.id).bind EvaluationResult.correctAnswer })

/-- Aggregated session score (types.ts UserScore). -/
structure UserScore where
  literal : Nat
  inferential : Nat
  evaluative : Nat
  total : Nat
deriving DecidableEq, Repr

/-- One pass of the forEach accumulation in App.tsx calculateScores (lines
72-79): one point per correct result, bucketed by question type. -/
def scoreStep (acc : Nat × Nat × Nat) (r : Result) : Nat × Nat × Nat :=
  let points := if r.isCorrect then 1 else 0
  ((if r.question.type == .LITERAL then acc.1 + points else acc.1),
   (if r.question.type == .INFERENTIAL then acc.2.1 + points else acc.2.1),
   (if r.question.type == .EVALUATIVE then acc.2.2 + points else acc.2.2))

/-- The score computation of App.tsx calculateScores (lines 69-82). -/
def calculateScores (rs : List Result) : UserScore :=
  let t := rs.foldl scoreStep (0, 0, 0)
  { literal := t.1, inferential := t.2.1, evaluative := t.2.2,
    total := t.1 + t.2.1 + t.2.2 }

/-- The logged-in pupil (types.ts UserInfo). -/
structure UserInfo where
  firstName : String
  lastName : String
deriving DecidableEq, Repr

/-- Top-level session states (types.ts AppState). -/
inductive AppState where
  | LOGIN
  | SETUP
  | LOADING_STORY
  | READING
  | QUIZ
  | RESULTS
deriving DecidableEq, Repr

/-- The Orchestrator state owned by App.tsx (lines 10-15). -/
structure AppSt where
  appState : AppState
  userInfo : UserInfo
  storyData : Option StoryData
  results : List Result
  finalFeedback : String
  finalScores : UserScore
deriving Repr

/-- The useState initial values of App.tsx (lines 10-15). -/
def initialAppSt : AppSt :=
  { appState := .LOGIN, userInfo := ⟨"", ""⟩, storyData := none, results := [],
    finalFeedback := "", finalScores := ⟨0, 0, 0, 0⟩ }

/-- App.tsx handleQuit (lines 133-140): on a confirmed quit, reset userInfo,
storyData, results and return to LOGIN; finalScores and finalFeedback are not
touched. -/
def handleQuit (confirmed : Bool) (s : AppSt) : AppSt :=
  if confirmed then
    { s with userInfo := ⟨"", ""⟩, storyData := none, results := [],
             appState := .LOGIN }
  else s

/-- The user intents and asynchronous resolutions that drive the Orchestrator,
one per App.tsx handler.  quizComplete carries the compiled results and the
final feedback text the Gateway resolves with. -/
inductive AppEvent where
  | login
  | assessStart
  | assessResolved (data : StoryData) (imageUrl : String)
  | assessFailed
  | readingDone
  | quizComplete (rs : List Result) (feedbackText : String)
  | download
  | quit (confirmed : Bool)

/-- The Orchestrator transitions of App.tsx, one case per handler: handleLogin
(18-23), startAssessment (44-63), handleReadingComplete (65-67),
calculateScores (69-90), downloadCSV (92-131, no state write) and handleQuit
(133-140). -/
def appStep : AppEvent → AppSt → AppSt
  | .login, s =>
      if s.userInfo.firstName.trim ≠ "" ∧ s.userInfo.lastName.trim ≠ "" then
        { s with appState := .SETUP }
      else s
  | .assessStart, s => { s with appState := .LOADING_STORY }
  | .assessResolved d url, s =>
      { s with storyData := some { d with imageUrl := some url },
               appState := .READING }
  | .assessFailed, s => { s with appState := .SETUP }
  | .readingDone, s => { s with appState := .QUIZ }
  | .quizComplete rs fb, s =>
      { s with finalScores := calculateScores rs, results := rs,
               finalFeedback := fb, appState := .RESULTS }
  | .download, s => s
  | .quit c, s => handleQuit c s

/-- Number of correct results of a given question type in a result list. -/
def countCorrect (rs : List Result) (t : QuestionType) : Nat :=
  (rs.filter (fun r => r.isCorrect && r.question.type == t)).length

/-! Concrete fixtures used by counterexamples and witnesses. -/

/-- A parsed StoryData with no questions: the model disobeyed the prompt. -/
def badStory : StoryData :=
  { title := "T", content := "Texte.", glossary := [], questions := [] }

/-- A well-formed ten-question story satisfying the §3 invariants. -/
def sampleStory : StoryData :=
  { title := "Les explorateurs"
    content := "Un texte sur les explorateurs."
    glossary := [⟨"boussole", "instrument"⟩, ⟨"cap", "direction"⟩, ⟨"vigie", "guetteur"⟩]
    questions :=
      [⟨1, "q1", .LITERAL⟩, ⟨2, "q2", .LITERAL⟩, ⟨3, "q3", .LITERAL⟩,
       ⟨4, "q4", .LITERAL⟩, ⟨5, "q5", .INFERENTIAL⟩, ⟨6, "q6", .INFERENTIAL⟩,
       ⟨7, "q7", .INFERENTIAL⟩, ⟨8, "q8", .INFERENTIAL⟩,
       ⟨9, "q9", .EVALUATIVE⟩, ⟨10, "q10", .EVALUATIVE⟩] }

/-- A one-question story for the Engine witnesses. -/
def miniStory : StoryData :=
  { title := "Mini", content := "Texte court.", glossary := [⟨"mot", "sens"⟩],
    questions := [⟨1, "Pourquoi ?", .LITERAL⟩] }

/-- A deterministic Gateway oracle: correct iff the answer is the string ok. -/
def sampleGw : EvalOracle := fun _ a =>
  { isCorrect := a == "ok", feedback := "fb", correctAnswer := some "la réponse" }

/-- Engine state whose single question id 1 is already CORRECT. -/
def engTerminal : EngineState :=
  { answers := fun id => if id = 1 then some "ok" else none
    statuses := fun id => if id = 1 then some .CORRECT else none
    feedbacks := fun _ => none
    attempts := fun _ => none }

/-- Engine state with question id 1 at IDLE, attempt 0, a wrong answer. -/
def engWrong : EngineState :=
  { answers := fun id => if id = 1 then some "mauvaise" else none
    statuses := fun _ => none
    feedbacks := fun _ => none
    attempts := fun _ => none }

/-- Engine state with question id 1 at IDLE, attempt 0, empty answer. -/
def engEmpty0 : EngineState :=
  { answers := fun _ => none
    statuses := fun _ => none
    feedbacks := fun _ => none
    attempts := fun _ => none }

/-- Engine state with question id 1 at INCORRECT_RETRY, attempt 1, whitespace
answer. -/
def engEmpty1 : EngineState :=
  { answers := fun id => if id = 1 then some "  " else none
    statuses := fun id => if id = 1 then some .INCORRECT_RETRY else none
    feedbacks := fun id => if id = 1 then some (localEmptyResult false) else none
    attempts := fun id => if id = 1 then some 1 else none }

/-- Engine state where question id 1 is finished but was never typed into. -/
def engDone : EngineState :=
  { answers := fun _ => none
    statuses := fun id => if id = 1 then some .FAILED_FINAL else none
    feedbacks := fun id => if id = 1 then some (sampleGw ⟨1, "Pourquoi ?", .LITERAL⟩ "") else none
    attempts := fun id => if id = 1 then some 2 else none }

/-- A parsed evaluation object whose correctAnswer hedges and whose feedback
is missing. -/
def hedgedParsed : ParsedEval :=
  { isCorrect := .jbool false
    score := .jnum 0
    feedback := .undef
    correctAnswer := .jstr "Je ne peux pas répondre car le texte manque." }

/-- Engine state over sampleStory with questions 1-5 CORRECT and the rest
FAILED_FINAL. -/
def engScored : EngineState :=
  { answers := fun id => if id ≤ 5 then some "ok" else none
    statuses := fun id => if id ≤ 5 then some .CORRECT else some .FAILED_FINAL
    feedbacks := fun _ => none
    attempts := fun id => if id ≤ 5 then some 0 else some 2 }

/-- A small result list for the score witnesses. -/
def sampleResults : List Result :=
  finishQuiz sampleStory engScored

/-- An Orchestrator state sitting on RESULTS with non-zero scores. -/
def appResults : AppSt :=
  { appState := .RESULTS, userInfo := ⟨"Amine", "Benali"⟩,
    storyData := some sampleStory, results := sampleResults,
    finalFeedback := "Bravo !", finalScores := ⟨4, 1, 0, 5⟩ }

/-! Theorems settling the claims. -/

/-- C1 counterexample: generateAssessment performs no validation of the §3
invariants; a parsed model output with an empty question list is returned
unchanged even though it has 0 questions instead of 10 and an empty
glossary. -/
theorem generateAssessment_counter :
    generateAssessment (some badStory) = Except.ok badStory ∧
    ¬ storyInvariants badStory := by
  constructor
  · rfl
  · unfold storyInvariants
    decide

/-- C1 amended: generateAssessment returns the parsed model output with only
the empty-content sentinel applied, so the §3 invariants hold for the
returned StoryData whenever the parsed model output already satisfies them;
the code itself enforces none of them. -/
theorem generateAssessment_valid (d : StoryData) (h : storyInvariants d) :
    ∃ d2, generateAssessment (some d) = Except.ok d2 ∧ storyInvariants d2 := by
  by_cases hc : jsTrim d.content = ""
  · refine ⟨{ d with content := extractionSentinel }, ?_, ?_⟩
    · simp [generateAssessment, hc]
    · simp only [storyInvariants] at h ⊢
      obtain ⟨h1, h2, h3, h4, h5, _, h7, h8⟩ := h
      exact ⟨h1, h2, h3, h4, h5, by decide, h7, h8⟩
  · exact ⟨d, by simp [generateAssessment, hc], h⟩

/-- C1 witness: a well-formed ten-question story is passed through with the
invariants intact. -/
theorem generateAssessment_valid_witness :
    storyInvariants sampleStory ∧
    ∃ d2, generateAssessment (some sampleStory) = Except.ok d2 ∧ storyInvariants d2 :=
  ⟨by unfold storyInvariants; decide,
   generateAssessment_valid sampleStory (by unfold storyInvariants; decide)⟩

/-- C2 counterexample: on a transport error evaluateAnswer does not return
the safe neutral result; the exception propagates to the caller, because the
generateContent call sits outside the try block. -/
theorem evaluateAnswer_counter :
    evaluateAnswer EvalOutcome.transportError = Except.error () := rfl

/-- C2 amended: once a model response is obtained, evaluateAnswer never
throws: a JSON parse failure yields the safe neutral result with isCorrect
false, the default kind feedback and an empty correctAnswer, and every parsed
output yields a normalized result; only a transport error propagates as an
exception (which the Engine's batch handler catches). -/
theorem evaluateAnswer_neutral :
    evaluateAnswer EvalOutcome.parseFailure =
      Except.ok { isCorrect := false, isIncomplete := false, score := some 0,
                  feedback := parseFailFeedback, correctAnswer := some "" } ∧
    (∀ p : ParsedEval, ∃ r, evaluateAnswer (EvalOutcome.parsed p) = Except.ok r ∧
      r = evalParsed p) :=
  ⟨rfl, fun p => ⟨evalParsed p, rfl, rfl⟩⟩

/-- C6: after a successful parse, the correctAnswer exposed by evaluateAnswer
never satisfies the hedging test: whenever the trimmed model output hedges it
is blanked to the empty string, and the neutral feedback is substituted when
the parsed feedback field was missing. -/
theorem evaluateAnswer_sanitizes (p : ParsedEval) :
    evaluateAnswer (EvalOutcome.parsed p) = Except.ok (evalParsed p) ∧
    (∀ ca, (evalParsed p).correctAnswer = some ca → hedging ca = false) ∧
    (hedging (jsTrim (p.correctAnswer.asString.getD "")) = true →
      (evalParsed p).correctAnswer = some "" ∧
      (p.feedback.truthy = false → (evalParsed p).feedback = neutralFeedbackHedged)) := by
  refine ⟨rfl, ?_, ?_⟩
  · intro ca hca
    simp only [evalParsed] at hca
    by_cases hb : hedging (jsTrim (p.correctAnswer.asString.getD "")) = true
    · rw [if_pos hb] at hca
      injection hca with h
      subst h
      decide
    · rw [if_neg hb] at hca
      injection hca with h
      subst h
      exact Bool.eq_false_iff.mpr (fun hx => hb hx)
  · intro hb
    refine ⟨?_, ?_⟩
    · simp only [evalParsed]
      rw [if_pos hb]
    · intro hf
      simp only [evalParsed]
      rw [hb, hf]
      simp

/-- C6 witness: a hedging model output is blanked and the neutral feedback is
substituted. -/
theorem evaluateAnswer_sanitizes_witness :
    hedging (jsTrim (hedgedParsed.correctAnswer.asString.getD "")) = true ∧
    (evalParsed hedgedParsed).correctAnswer = some "" ∧
    (evalParsed hedgedParsed).feedback = neutralFeedbackHedged :=
  ⟨by decide,
   ((evaluateAnswer_sanitizes hedgedParsed).2.2 (by decide)).1,
   ((evaluateAnswer_sanitizes hedgedParsed).2.2 (by decide)).2 (by decide)⟩

/-- The batch item built for a question carries that question's id. -/
theorem mkItem_id (gw : EvalOracle) (s : EngineState) (q : Question) :
    (mkItem gw s q).id = q.id := by
  simp only [mkItem]
  split <;> rfl

/-- The batch item records whether the question was already attempted. -/
theorem mkItem_isRetry (gw : EvalOracle) (s : EngineState) (q : Question) :
    (mkItem gw s q).isRetry = decide (0 < attemptOf s q.id) := by
  simp only [mkItem]
  split <;> rfl

/-- The update loop leaves every id other than the item's untouched. -/
theorem applyItem_ne (gw : EvalOracle) (story : StoryData) (s : EngineState)
    (maps : UpdMaps) (it : BatchItem) (id : Nat) (h : it.id ≠ id) :
    (applyItem gw story s maps it).statuses id = maps.statuses id ∧
    (applyItem gw story s maps it).feedbacks id = maps.feedbacks id ∧
    (applyItem gw story s maps it).attempts id = maps.attempts id := by
  refine ⟨?_, ?_, ?_⟩ <;> simp only [applyItem, mapSet]
  · rw [if_neg (Ne.symm h)]
  · rw [if_neg (Ne.symm h)]
  · split
    · rfl
    · exact if_neg (Ne.symm h)

/-- Folding the update loop over items none of which carry a given id leaves
that id's entries unchanged in all three maps. -/
theorem foldl_applyItem_ne (gw : EvalOracle) (story : StoryData) (s : EngineState)
    (items : List BatchItem) (maps : UpdMaps) (id : Nat)
    (h : ∀ it ∈ items, it.id ≠ id) :
    (items.foldl (applyItem gw story s) maps).statuses id = maps.statuses id ∧
    (items.foldl (applyItem gw story s) maps).feedbacks id = maps.feedbacks id ∧
    (items.foldl (applyItem gw story s) maps).attempts id = maps.attempts id := by
  induction items generalizing maps with
  | nil => exact ⟨rfl, rfl, rfl⟩
  | cons it rest ih =>
    have h1 := applyItem_ne gw story s maps it id (h it (List.mem_cons_self it rest))
    have h2 := ih (applyItem gw story s maps it) (fun x hx => h x (List.mem_cons_of_mem _ hx))
    simp only [List.foldl_cons]
    exact ⟨h2.1.trans h1.1, h2.2.1.trans h1.2.1, h2.2.2.trans h1.2.2⟩

/-- With pairwise-distinct keys, find-first by key locates a member. -/
theorem find?_eq_of_nodup {α : Type} (key : α → Nat) (l : List α) (a : α)
    (hnd : (l.map key).Nodup) (hmem : a ∈ l) :
    l.find? (fun x => key x == key a) = some a := by
  induction l with
  | nil => cases hmem
  | cons x rest ih =>
    rw [List.find?_cons]
    rcases List.mem_cons.mp hmem with rfl | hm
    · simp
    · have hnd' : key x ∉ rest.map key ∧ (rest.map key).Nodup := by
        rw [List.map_cons] at hnd
        exact List.nodup_cons.mp hnd
      have hne : key x ≠ key a := by
        intro he
        exact hnd'.1 (he ▸ List.mem_map_of_mem key hm)
      have hbe : (key x == key a) = false := by
        simp [hne]
      rw [hbe]
      exact ih hnd'.2 hm

/-- Looking up an item's id after the whole update loop, assuming
pairwise-distinct item ids: the entry is exactly what the item wrote
(attempts stay untouched when the final result is correct). -/
theorem foldl_applyItem_find (gw : EvalOracle) (story : StoryData) (s : EngineState)
    (items : List BatchItem) (maps : UpdMaps) (it : BatchItem)
    (hnd : (items.map BatchItem.id).Nodup)
    (hfind : items.find? (fun x => x.id == it.id) = some it) :
    (items.foldl (applyItem gw story s) maps).statuses it.id =
      some (newStatusOf gw story s it) ∧
    (items.foldl (applyItem gw story s) maps).feedbacks it.id =
      some (finalResultOf gw story s it) ∧
    (items.foldl (applyItem gw story s) maps).attempts it.id =
      (if (finalResultOf gw story s it).isCorrect then maps.attempts it.id
       else some (if it.isRetry then 2 else 1)) := by
  induction items generalizing maps with
  | nil => exact Option.noConfusion hfind
  | cons x rest ih =>
    have hnd2 : x.id ∉ rest.map BatchItem.id ∧ (rest.map BatchItem.id).Nodup := by
      rw [List.map_cons] at hnd
      exact List.nodup_cons.mp hnd
    by_cases hx : x.id = it.id
    · have hx2 : (x.id == it.id) = true := beq_iff_eq.mpr hx
      have hfx : x = it := by
        rw [List.find?_cons, hx2] at hfind
        exact Option.some.inj hfind
      subst hfx
      have hrest : ∀ y ∈ rest, y.id ≠ x.id := by
        intro y hy he
        exact hnd2.1 (he ▸ List.mem_map_of_mem BatchItem.id hy)
      have hpres := foldl_applyItem_ne gw story s rest
        (applyItem gw story s maps x) x.id hrest
      simp only [List.foldl_cons]
      refine ⟨hpres.1.trans ?_, hpres.2.1.trans ?_, hpres.2.2.trans ?_⟩
      · simp [applyItem, mapSet]
      · simp [applyItem, mapSet]
      · by_cases hc : (finalResultOf gw story s x).isCorrect
        · simp [applyItem, mapSet, hc]
        · simp [applyItem, mapSet, hc]
    · have hx2 : (x.id == it.id) = false := by
        simp [hx]
      have hfind2 : rest.find? (fun y => y.id == it.id) = some it := by
        rw [List.find?_cons, hx2] at hfind
        exact hfind
      have hih := ih (applyItem gw story s maps x) hnd2.2 hfind2
      simp only [List.foldl_cons]
      refine ⟨hih.1, hih.2.1, hih.2.2.trans ?_⟩
      have hne := (applyItem_ne gw story s maps x it.id hx).2.2
      rw [hne]

/-- Candidate ids inherit distinctness from the question list. -/
theorem candidates_id_nodup (story : StoryData) (s : EngineState)
    (hnd : (story.questions.map Question.id).Nodup) :
    ((questionsToEvaluate story s).map Question.id).Nodup :=
  hnd.sublist (List.Sublist.map _ (List.filter_sublist _))

/-- C3: once a question's status is terminal (CORRECT or FAILED_FINAL), a
submission batch leaves its status, answer, feedback and attempt entries
untouched: the candidate set contains no question with that id, and the
update loop writes only to candidate ids. -/
theorem terminal_absorption (gw : EvalOracle) (story : StoryData) (s : EngineState)
    (id : Nat) (h : isTerminal (statusOf s id) = true) :
    (handleGlobalSubmit gw story s).statuses id = s.statuses id ∧
    (handleGlobalSubmit gw story s).answers id = s.answers id ∧
    (handleGlobalSubmit gw story s).feedbacks id = s.feedbacks id ∧
    (handleGlobalSubmit gw story s).attempts id = s.attempts id ∧
    ∀ q ∈ questionsToEvaluate story s, q.id ≠ id := by
  have hcand : ∀ q ∈ questionsToEvaluate story s, q.id ≠ id := by
    intro q hq he
    have hmem := (List.mem_filter.mp hq).2
    rw [he] at hmem
    simp [h] at hmem
  simp only [handleGlobalSubmit]
  split
  · exact ⟨rfl, rfl, rfl, rfl, hcand⟩
  · have hitems : ∀ it ∈ (questionsToEvaluate story s).map (mkItem gw s), it.id ≠ id := by
      intro it hit
      obtain ⟨c, hc, rfl⟩ := List.mem_map.mp hit
      rw [mkItem_id]
      exact hcand c hc
    have hfold := foldl_applyItem_ne gw story s
      ((questionsToEvaluate story s).map (mkItem gw s))
      ⟨s.statuses, s.feedbacks, s.attempts⟩ id hitems
    exact ⟨hfold.1, rfl, hfold.2.1, hfold.2.2, hcand⟩

/-- C3 witness: a story whose single question is already CORRECT is left
fully unchanged by a further submission. -/
theorem terminal_absorption_witness :
    isTerminal (statusOf engTerminal 1) = true ∧
    ((handleGlobalSubmit sampleGw miniStory engTerminal).statuses 1 = engTerminal.statuses 1 ∧
     (handleGlobalSubmit sampleGw miniStory engTerminal).answers 1 = engTerminal.answers 1 ∧
     (handleGlobalSubmit sampleGw miniStory engTerminal).feedbacks 1 = engTerminal.feedbacks 1 ∧
     (handleGlobalSubmit sampleGw miniStory engTerminal).attempts 1 = engTerminal.attempts 1 ∧
     ∀ q ∈ questionsToEvaluate miniStory engTerminal, q.id ≠ 1) :=
  ⟨by decide, terminal_absorption sampleGw miniStory engTerminal 1 (by decide)⟩

/-- A non-terminal question of a story with distinct ids: the three entries a
submission batch leaves for it, read off the update-loop lemmas. -/
theorem handleGlobalSubmit_lookup (gw : EvalOracle) (story : StoryData) (s : EngineState)
    (q : Question)
    (hnd : (story.questions.map Question.id).Nodup)
    (hmem : q ∈ story.questions)
    (hterm : isTerminal (statusOf s q.id) = false) :
    (handleGlobalSubmit gw story s).statuses q.id =
      some (newStatusOf gw story s (mkItem gw s q)) ∧
    (handleGlobalSubmit gw story s).feedbacks q.id =
      some (finalResultOf gw story s (mkItem gw s q)) ∧
    (handleGlobalSubmit gw story s).attempts q.id =
      (if (finalResultOf gw story s (mkItem gw s q)).isCorrect then s.attempts q.id
       else some (if (mkItem gw s q).isRetry then 2 else 1)) := by
  have hq : q ∈ questionsToEvaluate story s :=
    List.mem_filter.mpr ⟨hmem, by simp [hterm]⟩
  have hne2 : ¬((questionsToEvaluate story s).isEmpty = true) := by
    intro hqe
    rw [List.isEmpty_iff] at hqe
    rw [hqe] at hq
    exact List.not_mem_nil q hq
  have hndc := candidates_id_nodup story s hnd
  have hndi : (((questionsToEvaluate story s).map (mkItem gw s)).map BatchItem.id).Nodup := by
    rw [List.map_map]
    rw [show (BatchItem.id ∘ mkItem gw s) = Question.id from funext (fun a => mkItem_id gw s a)]
    exact hndc
  have hfind := find?_eq_of_nodup BatchItem.id
    ((questionsToEvaluate story s).map (mkItem gw s)) (mkItem gw s q) hndi
    (List.mem_map_of_mem _ hq)
  have hlook := foldl_applyItem_find gw story s
    ((questionsToEvaluate story s).map (mkItem gw s))
    ⟨s.statuses, s.feedbacks, s.attempts⟩ (mkItem gw s q) hndi hfind
  simp only [mkItem_id] at hlook
  have hsub : handleGlobalSubmit gw story s =
      { s with
        statuses := (((questionsToEvaluate story s).map (mkItem gw s)).foldl
          (applyItem gw story s) ⟨s.statuses, s.feedbacks, s.attempts⟩).statuses,
        feedbacks := (((questionsToEvaluate story s).map (mkItem gw s)).foldl
          (applyItem gw story s) ⟨s.statuses, s.feedbacks, s.attempts⟩).feedbacks,
        attempts := (((questionsToEvaluate story s).map (mkItem gw s)).foldl
          (applyItem gw story s) ⟨s.statuses, s.feedbacks, s.attempts⟩).attempts } := by
    simp only [handleGlobalSubmit]
    rw [if_neg hne2]
  rw [hsub]
  exact hlook

/-- C4: per-question attempt bookkeeping of a submission batch, for a
non-terminal question of a story with distinct ids whose attempt counter is
within its reachable range.  A correct final result transitions to CORRECT
and leaves the attempt counter unchanged; a non-correct one increments it
strictly (0 to 1, 1 to 2) while stepping down the retry ladder; in all cases
the counter stays at most 2. -/
theorem attempt_monotonicity (gw : EvalOracle) (story : StoryData) (s : EngineState)
    (q : Question)
    (hnd : (story.questions.map Question.id).Nodup)
    (hmem : q ∈ story.questions)
    (hterm : isTerminal (statusOf s q.id) = false)
    (hatt : attemptOf s q.id ≤ 1) :
    ((finalResultOf gw story s (mkItem gw s q)).isCorrect = true →
      statusOf (handleGlobalSubmit gw story s) q.id = QuestionStatus.CORRECT ∧
      attemptOf (handleGlobalSubmit gw story s) q.id = attemptOf s q.id) ∧
    ((finalResultOf gw story s (mkItem gw s q)).isCorrect = false →
      attemptOf (handleGlobalSubmit gw story s) q.id = attemptOf s q.id + 1 ∧
      statusOf (handleGlobalSubmit gw story s) q.id =
        (if attemptOf s q.id = 0 then QuestionStatus.INCORRECT_RETRY
         else QuestionStatus.FAILED_FINAL)) ∧
    attemptOf (handleGlobalSubmit gw story s) q.id ≤ 2 := by
  have hlk := handleGlobalSubmit_lookup gw story s q hnd hmem hterm
  have hstat : statusOf (handleGlobalSubmit gw story s) q.id =
      newStatusOf gw story s (mkItem gw s q) := by
    simp only [statusOf]
    rw [hlk.1]
    rfl
  have hattEq : (handleGlobalSubmit gw story s).attempts q.id =
      (if (finalResultOf gw story s (mkItem gw s q)).isCorrect then s.attempts q.id
       else some (if (mkItem gw s q).isRetry then 2 else 1)) := hlk.2.2
  refine ⟨?_, ?_, ?_⟩
  · intro hc
    constructor
    · rw [hstat]
      simp only [newStatusOf, hc, if_true]
    · simp only [attemptOf, hattEq, hc, if_true]
  · intro hc
    have hretry : (mkItem gw s q).isRetry = decide (0 < attemptOf s q.id) :=
      mkItem_isRetry gw s q
    have h01 : attemptOf s q.id = 0 ∨ attemptOf s q.id = 1 := by omega
    constructor
    · rcases h01 with h0 | h0 <;>
        · have h0x : (s.attempts q.id).getD 0 = attemptOf s q.id := rfl
          simp only [attemptOf, hattEq, hc, Bool.false_eq_true, if_false, hretry,
            attemptOf] at h0 ⊢
          simp [h0]
    · rw [hstat]
      simp only [newStatusOf, hc, Bool.false_eq_true, if_false, hretry]
      rcases h01 with h0 | h0 <;>
        · simp only [attemptOf] at h0
          simp [h0, statusOf, attemptOf]
  · by_cases hc : (finalResultOf gw story s (mkItem gw s q)).isCorrect = true
    · simp only [attemptOf, hattEq, hc, if_true]
      exact le_trans hatt (by omega)
    · have hc2 : (finalResultOf gw story s (mkItem gw s q)).isCorrect = false := by
        simp at hc
        exact hc
      simp only [attemptOf, hattEq, hc2, Bool.false_eq_true, if_false]
      split <;> simp

/-- C4 witness: a wrong first answer moves attempt 0 to 1 and the status to
INCORRECT_RETRY. -/
theorem attempt_monotonicity_witness :
    (miniStory.questions.map Question.id).Nodup ∧
    (⟨1, "Pourquoi ?", .LITERAL⟩ : Question) ∈ miniStory.questions ∧
    isTerminal (statusOf engWrong 1) = false ∧
    attemptOf engWrong 1 ≤ 1 ∧
    (((finalResultOf sampleGw miniStory engWrong
        (mkItem sampleGw engWrong ⟨1, "Pourquoi ?", .LITERAL⟩)).isCorrect = true →
      statusOf (handleGlobalSubmit sampleGw miniStory engWrong) 1 = QuestionStatus.CORRECT ∧
      attemptOf (handleGlobalSubmit sampleGw miniStory engWrong) 1 = attemptOf engWrong 1) ∧
    ((finalResultOf sampleGw miniStory engWrong
        (mkItem sampleGw engWrong ⟨1, "Pourquoi ?", .LITERAL⟩)).isCorrect = false →
      attemptOf (handleGlobalSubmit sampleGw miniStory engWrong) 1 = attemptOf engWrong 1 + 1 ∧
      statusOf (handleGlobalSubmit sampleGw miniStory engWrong) 1 =
        (if attemptOf engWrong 1 = 0 then QuestionStatus.INCORRECT_RETRY
         else QuestionStatus.FAILED_FINAL)) ∧
    attemptOf (handleGlobalSubmit sampleGw miniStory engWrong) 1 ≤ 2) :=
  ⟨by decide, by decide, by decide, by decide,
   attempt_monotonicity sampleGw miniStory engWrong ⟨1, "Pourquoi ?", .LITERAL⟩
     (by decide) (by decide) (by decide) (by decide)⟩

/-- A per-question call producer contributes nothing for an id that does not
occur in the list. -/
theorem filter_calls_nil {f : Question → Option GatewayCall}
    (hf : ∀ c call, f c = some call → call.qid = c.id)
    (l : List Question) (i : Nat) (hni : i ∉ l.map Question.id) :
    (l.filterMap f).filter (fun c => c.qid == i) = [] := by
  induction l with
  | nil => rfl
  | cons x rest ih =>
    have hxi : x.id ≠ i := by
      intro he
      exact hni (by rw [List.map_cons]; exact he ▸ List.mem_cons_self _ _)
    have hrest : i ∉ rest.map Question.id := by
      intro hm
      exact hni (by rw [List.map_cons]; exact List.mem_cons_of_mem _ hm)
    rw [List.filterMap_cons]
    cases hfx : f x with
    | none => exact ih hrest
    | some call =>
      rw [List.filter_cons]
      have hb : (call.qid == i) = false := by
        simp [hf x call hfx, hxi]
      rw [hb]
      simp only [Bool.false_eq_true, if_false]
      exact ih hrest

/-- With distinct ids, filtering the produced calls down to one member's id
keeps exactly that member's contribution. -/
theorem filter_calls_eq {f : Question → Option GatewayCall}
    (hf : ∀ c call, f c = some call → call.qid = c.id)
    (l : List Question) (q : Question)
    (hnd : (l.map Question.id).Nodup) (hmem : q ∈ l) :
    (l.filterMap f).filter (fun c => c.qid == q.id) = (f q).toList := by
  induction l with
  | nil => cases hmem
  | cons x rest ih =>
    have hnd2 : x.id ∉ rest.map Question.id ∧ (rest.map Question.id).Nodup := by
      rw [List.map_cons] at hnd
      exact List.nodup_cons.mp hnd
    rw [List.filterMap_cons]
    rcases List.mem_cons.mp hmem with rfl | hm
    · cases hfx : f q with
      | none =>
        exact filter_calls_nil hf rest q.id hnd2.1
      | some call =>
        show List.filter (fun c => c.qid == q.id) (call :: rest.filterMap f) = [call]
        rw [List.filter_cons]
        have hb : (call.qid == q.id) = true := by
          simp [hf q call hfx]
        rw [hb]
        simp only [if_true]
        rw [filter_calls_nil hf rest q.id hnd2.1]
    · have hxq : x.id ≠ q.id := by
        intro he
        exact hnd2.1 (he ▸ List.mem_map_of_mem _ hm)
      cases hfx : f x with
      | none => exact ih hnd2.2 hm
      | some call =>
        show List.filter (fun c => c.qid == q.id) (call :: rest.filterMap f) = (f q).toList
        rw [List.filter_cons]
        have hb : (call.qid == q.id) = false := by
          simp [hf x call hfx, hxq]
        rw [hb]
        simp only [Bool.false_eq_true, if_false]
        exact ih hnd2.2 hm

/-- The Op-B calls of one submission that concern a given non-terminal
question: the batch call when its answer is non-empty, then the forced
correction call when its item requires one. -/
theorem submitCalls_filter (gw : EvalOracle) (story : StoryData) (s : EngineState)
    (q : Question)
    (hnd : (story.questions.map Question.id).Nodup)
    (hmem : q ∈ story.questions)
    (hterm : isTerminal (statusOf s q.id) = false) :
    (submitCalls gw story s).filter (fun c => c.qid == q.id) =
      ((if jsTrim (answerOf s q.id) = "" then (none : Option GatewayCall)
        else some ⟨q.id, answerOf s q.id⟩).toList)
      ++ ((if needsForcedCall s (mkItem gw s q) then (some ⟨(mkItem gw s q).id, ""⟩ : Option GatewayCall)
        else none).toList) := by
  have hq : q ∈ questionsToEvaluate story s :=
    List.mem_filter.mpr ⟨hmem, by simp [hterm]⟩
  have hne2 : ¬((questionsToEvaluate story s).isEmpty = true) := by
    intro hqe
    rw [List.isEmpty_iff] at hqe
    rw [hqe] at hq
    exact List.not_mem_nil q hq
  have hndc := candidates_id_nodup story s hnd
  simp only [submitCalls]
  rw [if_neg hne2, List.filter_append]
  have hpart1 := filter_calls_eq
    (f := fun c => if jsTrim (answerOf s c.id) = "" then (none : Option GatewayCall)
      else some ⟨c.id, answerOf s c.id⟩)
    (by
      intro c call hc
      have hc2 : (if jsTrim (answerOf s c.id) = "" then (none : Option GatewayCall)
          else some ⟨c.id, answerOf s c.id⟩) = some call := hc
      by_cases hcc : jsTrim (answerOf s c.id) = ""
      · rw [if_pos hcc] at hc2
        exact Option.noConfusion hc2
      · rw [if_neg hcc] at hc2
        cases hc2
        rfl)
    (questionsToEvaluate story s) q hndc hq
  have hmapfm : ((questionsToEvaluate story s).map (mkItem gw s)).filterMap
      (fun it => if needsForcedCall s it then (some ⟨it.id, ""⟩ : Option GatewayCall) else none)
      = (questionsToEvaluate story s).filterMap
      (fun c => if needsForcedCall s (mkItem gw s c)
        then (some ⟨(mkItem gw s c).id, ""⟩ : Option GatewayCall) else none) := by
    rw [List.filterMap_map]
    rfl
  have hpart2 := filter_calls_eq
    (f := fun c => if needsForcedCall s (mkItem gw s c)
      then (some ⟨(mkItem gw s c).id, ""⟩ : Option GatewayCall) else none)
    (by
      intro c call hc
      have hc2 : (if needsForcedCall s (mkItem gw s c)
          then (some ⟨(mkItem gw s c).id, ""⟩ : Option GatewayCall) else none) = some call := hc
      by_cases hcc : needsForcedCall s (mkItem gw s c) = true
      · rw [if_pos hcc] at hc2
        cases hc2
        exact mkItem_id gw s c
      · rw [if_neg hcc] at hc2
        exact Option.noConfusion hc2)
    (questionsToEvaluate story s) q hndc hq
  rw [hpart1, hmapfm, hpart2]

/-- C5: empty-answer policy of a submission, for a non-terminal question with
a whitespace-only answer in a story with distinct ids.  On attempt 0 no
Gateway call is made for the question and it moves to INCORRECT_RETRY with
the local result (isCorrect false, isIncomplete true); on attempt 1 exactly
one Gateway call with empty studentAnswer is made, its result is recorded as
the question's feedback (carrying the correctAnswer), and a non-correct
result makes the question FAILED_FINAL. -/
theorem empty_answer_policy (gw : EvalOracle) (story : StoryData) (s : EngineState)
    (q : Question)
    (hnd : (story.questions.map Question.id).Nodup)
    (hmem : q ∈ story.questions)
    (hterm : isTerminal (statusOf s q.id) = false)
    (hempty : jsTrim (answerOf s q.id) = "") :
    (attemptOf s q.id = 0 →
      (submitCalls gw story s).filter (fun c => c.qid == q.id) = [] ∧
      statusOf (handleGlobalSubmit gw story s) q.id = QuestionStatus.INCORRECT_RETRY ∧
      (handleGlobalSubmit gw story s).feedbacks q.id = some (localEmptyResult false)) ∧
    (attemptOf s q.id = 1 →
      (submitCalls gw story s).filter (fun c => c.qid == q.id) = [⟨q.id, ""⟩] ∧
      (handleGlobalSubmit gw story s).feedbacks q.id = some (gw q "") ∧
      ((gw q "").isCorrect = false →
        statusOf (handleGlobalSubmit gw story s) q.id = QuestionStatus.FAILED_FINAL)) := by
  have hlk := handleGlobalSubmit_lookup gw story s q hnd hmem hterm
  have hcalls := submitCalls_filter gw story s q hnd hmem hterm
  constructor
  · intro h0
    have hretry : decide (0 < attemptOf s q.id) = false := by
      rw [h0]
      decide
    have hitem : mkItem gw s q = ⟨q.id, localEmptyResult false, false⟩ := by
      simp only [mkItem, hretry]
      rw [if_pos hempty]
    have hforced : needsForcedCall s (mkItem gw s q) = false := by
      rw [hitem]
      simp [needsForcedCall]
    have hfr : finalResultOf gw story s (mkItem gw s q) = localEmptyResult false := by
      unfold finalResultOf
      rw [if_neg (by simp [hforced]), hitem]
    refine ⟨?_, ?_, ?_⟩
    · rw [hcalls, if_pos hempty, hforced]
      rfl
    · simp only [statusOf]
      rw [hlk.1]
      simp only [Option.getD_some]
      unfold newStatusOf
      rw [hfr, hitem]
      simp [localEmptyResult]
    · rw [hlk.2.1, hfr]
  · intro h1
    have hretry : decide (0 < attemptOf s q.id) = true := by
      rw [h1]
      decide
    have hitem : mkItem gw s q = ⟨q.id, localEmptyResult true, true⟩ := by
      simp only [mkItem, hretry]
      rw [if_pos hempty]
    have hforced : needsForcedCall s (mkItem gw s q) = true := by
      rw [hitem]
      simp [needsForcedCall, caFalsy, localEmptyResult, hempty]
    have hfindq : findQ story q.id = q := by
      simp only [findQ]
      rw [find?_eq_of_nodup Question.id story.questions q hnd hmem]
      rfl
    have hfr : finalResultOf gw story s (mkItem gw s q) = gw q "" := by
      unfold finalResultOf
      rw [if_pos hforced, mkItem_id, hfindq]
    refine ⟨?_, ?_, ?_⟩
    · rw [hcalls, if_pos hempty, hforced]
      simp only [if_true, mkItem_id]
      rfl
    · rw [hlk.2.1, hfr]
    · intro hw
      simp only [statusOf]
      rw [hlk.1]
      simp only [Option.getD_some]
      unfold newStatusOf
      rw [hfr, hw, hitem]
      simp

/-- C5 witness: with the single question unanswered, attempt 0 short-circuits
locally to INCORRECT_RETRY with no Gateway call, and attempt 1 triggers
exactly the one forced call with empty studentAnswer, ending FAILED_FINAL. -/
theorem empty_answer_policy_witness :
    jsTrim (answerOf engEmpty0 1) = "" ∧ attemptOf engEmpty0 1 = 0 ∧
    ((submitCalls sampleGw miniStory engEmpty0).filter (fun c => c.qid == 1) = [] ∧
      statusOf (handleGlobalSubmit sampleGw miniStory engEmpty0) 1 = QuestionStatus.INCORRECT_RETRY ∧
      (handleGlobalSubmit sampleGw miniStory engEmpty0).feedbacks 1 = some (localEmptyResult false)) ∧
    jsTrim (answerOf engEmpty1 1) = "" ∧ attemptOf engEmpty1 1 = 1 ∧
    ((submitCalls sampleGw miniStory engEmpty1).filter (fun c => c.qid == 1) = [⟨1, ""⟩] ∧
      (handleGlobalSubmit sampleGw miniStory engEmpty1).feedbacks 1 =
        some (sampleGw ⟨1, "Pourquoi ?", .LITERAL⟩ "") ∧
      ((sampleGw ⟨1, "Pourquoi ?", .LITERAL⟩ "").isCorrect = false →
        statusOf (handleGlobalSubmit sampleGw miniStory engEmpty1) 1 = QuestionStatus.FAILED_FINAL)) :=
  ⟨by decide, by decide,
   (empty_answer_policy sampleGw miniStory engEmpty0 ⟨1, "Pourquoi ?", .LITERAL⟩
     (by decide) (by decide) (by decide) (by decide)).1 (by decide),
   by decide, by decide,
   (empty_answer_policy sampleGw miniStory engEmpty1 ⟨1, "Pourquoi ?", .LITERAL⟩
     (by decide) (by decide) (by decide) (by decide)).2 (by decide)⟩

/-- C7: when isAllComplete holds, every question's status is CORRECT or
FAILED_FINAL, and finishQuiz emits one Result per question in original order
whose isCorrect flag is exactly the comparison of the stored status with
CORRECT. -/
theorem completion_totality (story : StoryData) (s : EngineState)
    (h : isAllComplete story s = true) :
    (finishQuiz story s).length = story.questions.length ∧
    (∀ q ∈ story.questions,
      s.statuses q.id = some QuestionStatus.CORRECT ∨
      s.statuses q.id = some QuestionStatus.FAILED_FINAL) ∧
    (∀ i : Nat,
      ((finishQuiz story s)[i]?).map Result.question = story.questions[i]? ∧
      ((finishQuiz story s)[i]?).map Result.isCorrect =
        (story.questions[i]?).map
          (fun q => s.statuses q.id == some QuestionStatus.CORRECT)) := by
  refine ⟨?_, ?_, ?_⟩
  · unfold finishQuiz
    exact List.length_map _ _
  · intro q hq
    simp only [isAllComplete, List.all_eq_true] at h
    have h2 := h q hq
    simp only [Bool.or_eq_true, beq_iff_eq] at h2
    exact h2
  · intro i
    cases hqi : story.questions[i]? with
    | none =>
      have h1 : (finishQuiz story s)[i]? = none := by
        unfold finishQuiz
        rw [List.getElem?_map, hqi]
        rfl
      rw [h1]
      exact ⟨rfl, rfl⟩
    | some q =>
      have h1 : (finishQuiz story s)[i]? =
          some { question := q
                 userAnswer := s.answers q.id
                 isCorrect := s.statuses q.id == some .CORRECT
                 feedback := (s.feedbacks q.id).map EvaluationResult.feedback
                 correctAnswer := (s.feedbacks q.id).bind EvaluationResult.correctAnswer } := by
        unfold finishQuiz
        rw [List.getElem?_map, hqi]
        rfl
      rw [h1]
      exact ⟨rfl, rfl⟩

/-- C7 witness: the finished one-question session compiles a one-element
result list in order. -/
theorem completion_totality_witness :
    isAllComplete miniStory engDone = true ∧
    ((finishQuiz miniStory engDone).length = miniStory.questions.length ∧
     (∀ q ∈ miniStory.questions,
       engDone.statuses q.id = some QuestionStatus.CORRECT ∨
       engDone.statuses q.id = some QuestionStatus.FAILED_FINAL) ∧
     (∀ i : Nat,
       ((finishQuiz miniStory engDone)[i]?).map Result.question = miniStory.questions[i]? ∧
       ((finishQuiz miniStory engDone)[i]?).map Result.isCorrect =
         (miniStory.questions[i]?).map
           (fun q => engDone.statuses q.id == some QuestionStatus.CORRECT))) :=
  ⟨by decide, completion_totality miniStory engDone (by decide)⟩

/-- A filter with a stronger predicate never keeps more elements. -/
theorem length_filter_mono {α : Type} (p q : α → Bool) (l : List α)
    (h : ∀ a, p a = true → q a = true) :
    (l.filter p).length ≤ (l.filter q).length := by
  induction l with
  | nil => exact Nat.le_refl _
  | cons x rest ih =>
    rw [List.filter_cons, List.filter_cons]
    by_cases hp : p x = true
    · rw [if_pos hp, if_pos (h x hp)]
      simpa using ih
    · rw [if_neg hp]
      by_cases hq : q x = true
      · rw [if_pos hq]
        exact Nat.le_trans ih (by simp)
      · rw [if_neg hq]
        exact ih

/-- Filtering a mapped list counts the preimages accepted through the map. -/
theorem filter_map_len {α β : Type} (f : α → β) (p : β → Bool) (l : List α) :
    ((l.map f).filter p).length = (l.filter (fun a => p (f a))).length := by
  induction l with
  | nil => rfl
  | cons x rest ih =>
    rw [List.map_cons, List.filter_cons, List.filter_cons]
    by_cases hp : p (f x) = true
    · rw [if_pos hp, if_pos hp]
      simp [ih]
    · rw [if_neg hp, if_neg hp]
      exact ih

/-- Correct answers of one type never outnumber the questions of that type. -/
theorem countCorrect_le (story : StoryData) (s : EngineState) (t : QuestionType) :
    countCorrect (finishQuiz story s) t ≤ countType story.questions t := by
  unfold countCorrect countType
  have h1 := length_filter_mono (fun r => r.isCorrect && r.question.type == t)
    (fun r => r.question.type == t) (finishQuiz story s)
    (fun a ha => by
      simp only [Bool.and_eq_true] at ha
      exact ha.2)
  refine Nat.le_trans h1 ?_
  unfold finishQuiz
  rw [filter_map_len]

/-- The score fold counts, per bucket, the correct results of that type. -/
theorem foldl_scoreStep (rs : List Result) (a b c : Nat) :
    rs.foldl scoreStep (a, b, c) =
      (a + countCorrect rs .LITERAL, b + countCorrect rs .INFERENTIAL,
       c + countCorrect rs .EVALUATIVE) := by
  induction rs generalizing a b c with
  | nil => simp [countCorrect]
  | cons r rest ih =>
    simp only [List.foldl_cons, scoreStep]
    rw [ih]
    cases hc : r.isCorrect <;> cases ht : r.question.type <;>
      · simp only [countCorrect, List.filter_cons, hc, ht, Prod.mk.injEq]
        refine ⟨?_, ?_, ?_⟩ <;> simp <;> omega

/-- calculateScores in closed form: one point per correct result, bucketed by
type, with total the sum of the three buckets. -/
theorem calculateScores_eq (rs : List Result) :
    calculateScores rs =
      { literal := countCorrect rs .LITERAL
        inferential := countCorrect rs .INFERENTIAL
        evaluative := countCorrect rs .EVALUATIVE
        total := countCorrect rs .LITERAL + countCorrect rs .INFERENTIAL +
          countCorrect rs .EVALUATIVE } := by
  unfold calculateScores
  rw [foldl_scoreStep]
  simp

/-- C8: for results compiled from a story with the 4/4/2 composition,
calculateScores awards exactly one point per correct result bucketed by
question type, each bucket is bounded by its question count, and the total is
the sum of the buckets, at most 10. -/
theorem score_bounds (story : StoryData) (s : EngineState)
    (hL : countType story.questions .LITERAL = 4)
    (hI : countType story.questions .INFERENTIAL = 4)
    (hE : countType story.questions .EVALUATIVE = 2) :
    (calculateScores (finishQuiz story s)).literal =
      countCorrect (finishQuiz story s) .LITERAL ∧
    (calculateScores (finishQuiz story s)).inferential =
      countCorrect (finishQuiz story s) .INFERENTIAL ∧
    (calculateScores (finishQuiz story s)).evaluative =
      countCorrect (finishQuiz story s) .EVALUATIVE ∧
    (calculateScores (finishQuiz story s)).literal ≤ 4 ∧
    (calculateScores (finishQuiz story s)).inferential ≤ 4 ∧
    (calculateScores (finishQuiz story s)).evaluative ≤ 2 ∧
    (calculateScores (finishQuiz story s)).total =
      (calculateScores (finishQuiz story s)).literal +
      (calculateScores (finishQuiz story s)).inferential +
      (calculateScores (finishQuiz story s)).evaluative ∧
    (calculateScores (finishQuiz story s)).total ≤ 10 := by
  have h1 := countCorrect_le story s .LITERAL
  have h2 := countCorrect_le story s .INFERENTIAL
  have h3 := countCorrect_le story s .EVALUATIVE
  rw [hL] at h1
  rw [hI] at h2
  rw [hE] at h3
  rw [calculateScores_eq]
  refine ⟨rfl, rfl, rfl, h1, h2, h3, rfl, ?_⟩
  show countCorrect (finishQuiz story s) .LITERAL +
    countCorrect (finishQuiz story s) .INFERENTIAL +
    countCorrect (finishQuiz story s) .EVALUATIVE ≤ 10
  omega

/-- C8 witness: five correct answers over the 4/4/2 sample story score 4/1/0
with total 5. -/
theorem score_bounds_witness :
    countType sampleStory.questions .LITERAL = 4 ∧
    countType sampleStory.questions .INFERENTIAL = 4 ∧
    countType sampleStory.questions .EVALUATIVE = 2 ∧
    ((calculateScores (finishQuiz sampleStory engScored)).literal =
      countCorrect (finishQuiz sampleStory engScored) .LITERAL ∧
    (calculateScores (finishQuiz sampleStory engScored)).inferential =
      countCorrect (finishQuiz sampleStory engScored) .INFERENTIAL ∧
    (calculateScores (finishQuiz sampleStory engScored)).evaluative =
      countCorrect (finishQuiz sampleStory engScored) .EVALUATIVE ∧
    (calculateScores (finishQuiz sampleStory engScored)).literal ≤ 4 ∧
    (calculateScores (finishQuiz sampleStory engScored)).inferential ≤ 4 ∧
    (calculateScores (finishQuiz sampleStory engScored)).evaluative ≤ 2 ∧
    (calculateScores (finishQuiz sampleStory engScored)).total =
      (calculateScores (finishQuiz sampleStory engScored)).literal +
      (calculateScores (finishQuiz sampleStory engScored)).inferential +
      (calculateScores (finishQuiz sampleStory engScored)).evaluative ∧
    (calculateScores (finishQuiz sampleStory engScored)).total ≤ 10) :=
  ⟨by decide, by decide, by decide,
   score_bounds sampleStory engScored (by decide) (by decide) (by decide)⟩

/-- C9: a confirmed quit resets userInfo, storyData and results and returns
to LOGIN, but leaves finalScores and finalFeedback at their previous-session
values; moreover no Orchestrator transition other than quiz completion (the
calculateScores handler) ever writes those two fields, so the stale values
persist until the next session finishes its quiz. -/
theorem quit_frame (s : AppSt) (e : AppEvent)
    (he : ∀ rs fb, e ≠ AppEvent.quizComplete rs fb) :
    (handleQuit true s).finalScores = s.finalScores ∧
    (handleQuit true s).finalFeedback = s.finalFeedback ∧
    (handleQuit true s).userInfo = ⟨"", ""⟩ ∧
    (handleQuit true s).storyData = none ∧
    (handleQuit true s).results = [] ∧
    (handleQuit true s).appState = AppState.LOGIN ∧
    (appStep e s).finalScores = s.finalScores ∧
    (appStep e s).finalFeedback = s.finalFeedback := by
  refine ⟨rfl, rfl, rfl, rfl, rfl, rfl, ?_⟩
  cases e with
  | login =>
    constructor <;> (simp only [appStep]; split <;> rfl)
  | assessStart => exact ⟨rfl, rfl⟩
  | assessResolved d url => exact ⟨rfl, rfl⟩
  | assessFailed => exact ⟨rfl, rfl⟩
  | readingDone => exact ⟨rfl, rfl⟩
  | quizComplete rs fb => exact absurd rfl (he rs fb)
  | download => exact ⟨rfl, rfl⟩
  | quit c =>
    cases c
    · exact ⟨rfl, rfl⟩
    · exact ⟨rfl, rfl⟩

/-- C9 witness: quitting from a RESULTS state with score 4/1/0/5 keeps those
scores and the feedback text while wiping the session data. -/
theorem quit_frame_witness :
    (handleQuit true appResults).finalScores = appResults.finalScores ∧
    (handleQuit true appResults).finalFeedback = appResults.finalFeedback ∧
    (handleQuit true appResults).userInfo = ⟨"", ""⟩ ∧
    (handleQuit true appResults).storyData = none ∧
    (handleQuit true appResults).results = [] ∧
    (handleQuit true appResults).appState = AppState.LOGIN ∧
    (appStep AppEvent.download appResults).finalScores = appResults.finalScores ∧
    (appStep AppEvent.download appResults).finalFeedback = appResults.finalFeedback :=
  quit_frame appResults AppEvent.download (fun _ _ h => AppEvent.noConfusion h)

/-- C10: a question the pupil never typed into yields a compiled Result whose
userAnswer is the absent value (undefined), not the empty string, because
finishQuiz reads the raw answers map without the empty-string default. -/
theorem userAnswer_unset (story : StoryData) (s : EngineState) (i : Nat) (q : Question)
    (hqi : story.questions[i]? = some q)
    (ha : s.answers q.id = none) :
    ((finishQuiz story s)[i]?).map Result.userAnswer = some none ∧
    ((finishQuiz story s)[i]?).map Result.userAnswer ≠ some (some "") := by
  have h1 : (finishQuiz story s)[i]? =
      some { question := q
             userAnswer := s.answers q.id
             isCorrect := s.statuses q.id == some .CORRECT
             feedback := (s.feedbacks q.id).map EvaluationResult.feedback
             correctAnswer := (s.feedbacks q.id).bind EvaluationResult.correctAnswer } := by
    unfold finishQuiz
    rw [List.getElem?_map, hqi]
    rfl
  rw [h1]
  constructor
  · simp [ha]
  · simp [ha]

/-- C10 witness: the single unanswered question compiles with an undefined
userAnswer. -/
theorem userAnswer_unset_witness :
    miniStory.questions[0]? = some ⟨1, "Pourquoi ?", QuestionType.LITERAL⟩ ∧
    engDone.answers 1 = none ∧
    (((finishQuiz miniStory engDone)[0]?).map Result.userAnswer = some none ∧
     ((finishQuiz miniStory engDone)[0]?).map Result.userAnswer ≠ some (some "")) :=
  ⟨by decide, by decide,
   userAnswer_unset miniStory engDone 0 ⟨1, "Pourquoi ?", QuestionType.LITERAL⟩
     (by decide) (by decide)⟩

end Txtcomp
